import Mathlib

/-!
Shallow embedding of the transactional core of the `minilikmila/e-commerce`
backend: the order-placement service (`internal/usecase/order/service.go`),
the product service (`internal/usecase/product/service.go`), the GORM-backed
repositories and unit of work (`internal/adapter/repository/gorm`), the
in-memory cache (`pkg/cache`) and the sliding-window rate limiter
(`internal/adapter/middleware`).

Modeling conventions:
  * `uuid.UUID` values are modelled as `Nat` (opaque identities).
  * `time.Time` values are modelled as `Nat` (cache) resp. `Int`
    (rate limiter, where `now - window` must not truncate).
  * Go `float64` money amounts are modelled as `ℚ`; the algorithms only
    add and multiply them, and every claim is about the algebra the code
    performs, not about rounding.
  * Go `int` stock / quantity values are modelled as `Int`.
  * The database is modelled as a `Store`: a partial map from product id to
    product row plus the list of order rows (an order row carries its
    order-item rows, mirroring the `orders`/`order_items` tables).
  * `gorm.DB.Transaction` (used by `unitOfWork.Execute`) commits the callback
    result on success and rolls every mutation back on error; `uowExecute`
    models exactly that: the returned store is the callback result on `ok`
    and the untouched pre-call store on `error`.
  * `uuid.New()` is modelled by an explicit supply of fresh identifiers
    (`ordId` for the order, `gen : Nat → Nat` for the order items).
-/

namespace Ecom

/-- Embeds `domain.Product` (internal/domain/product definitions used by the core). -/
structure Product where
  id : Nat
  name : String
  descr : String
  price : ℚ
  stock : Int
  category : String
  userId : Nat
  createdAt : Nat
  updatedAt : Nat
deriving Repr, DecidableEq

/-- Embeds `domain.OrderStatus`. -/
inductive OrderStatus where
  | pending
  | completed
  | cancelled
deriving Repr, DecidableEq

/-- Embeds `domain.OrderItem`. -/
structure OrderItem where
  id : Nat
  productId : Nat
  orderId : Nat
  quantity : Int
  unitPrice : ℚ
  createdAt : Nat
  updatedAt : Nat
deriving Repr, DecidableEq

/-- Embeds `domain.Order`. -/
structure Order where
  id : Nat
  userId : Nat
  descr : String
  totalPrice : ℚ
  status : OrderStatus
  items : List OrderItem
  createdAt : Nat
  updatedAt : Nat
deriving Repr, DecidableEq

/-- The error values produced by the embedded code paths
(`internal/domain/errors.go` plus the `fmt.Errorf` literals of the
services). `insufficientStock` carries the product *name* appended by
`fmt.Errorf("%w: %s", domain.ErrInsufficientStock, product.Name)`;
`quantityNotPositive` carries the product id interpolated into
`"quantity for product %s must be greater than zero"`. -/
inductive Err where
  | emptyOrder
  | quantityNotPositive (productId : Nat)
  | productNotFound
  | insufficientStock (productName : String)
  | productHasPendingOrders
  | invalidInput (message : String)
  | dbFailure
deriving Repr, DecidableEq

/-- The persistent state seen through one repository provider: the
`products` table as a partial map from id to row, and the `orders` table
(each order row carrying its `order_items` rows). -/
structure Store where
  products : Nat → Option Product
  orders : List Order

/-- Embeds `productRepository.GetByID`: `First(&model, "id = ?", id)`;
`gorm.ErrRecordNotFound` is mapped to `domain.ErrProductNotFound`. -/
def getByID (s : Store) (pid : Nat) : Except Err Product :=
  match s.products pid with
  | none => .error .productNotFound
  | some p => .ok p

/-- The column map written by `productRepository.Update`: it updates
`name, description, price, stock, category, user_id, updated_at` of the
existing row and leaves `id` and `created_at` untouched. -/
def applyColumns (old p : Product) : Product :=
  { old with
      name := p.name, descr := p.descr, price := p.price, stock := p.stock,
      category := p.category, userId := p.userId, updatedAt := p.updatedAt }

/-- Embeds `productRepository.Update`: `RowsAffected == 0` (no row with that id)
yields `domain.ErrProductNotFound`, otherwise the row is overwritten with
the column map. -/
def productsUpdate (s : Store) (p : Product) : Except Err Store :=
  match s.products p.id with
  | none => .error .productNotFound
  | some old =>
      .ok { s with
              products := fun k => if k = p.id then some (applyColumns old p) else s.products k }

/-- Embeds `productRepository.Delete`: deletes the row; `RowsAffected == 0` yields
`domain.ErrProductNotFound`. -/
def productsDelete (s : Store) (pid : Nat) : Except Err Store :=
  match s.products pid with
  | none => .error .productNotFound
  | some _ => .ok { s with products := fun k => if k = pid then none else s.products k }

/-- Embeds `orderRepository.Create`: inserts the order row (with its items).
`dbOk = false` injects an infrastructure failure of this final write
(`r.db.Create(model).Error != nil`). -/
def ordersCreate (s : Store) (o : Order) (dbOk : Bool) : Except Err Store :=
  if dbOk then .ok { s with orders := s.orders ++ [o] } else .error .dbFailure

/-- Embeds `orderRepository.HasPendingOrdersByProductID`: counts `order_items`
joined with `orders` where `product_id = pid` and `status = 'pending'`,
and reports whether the count is positive. -/
def hasPendingOrdersByProductID (s : Store) (pid : Nat) : Bool :=
  s.orders.any fun o =>
    decide (o.status = OrderStatus.pending) && o.items.any fun it => decide (it.productId = pid)

/-- Embeds `unitOfWork.Execute` over `gorm.DB.Transaction`: run the callback on the
transaction-scoped store; commit its writes on success, roll everything back
(return the pre-call store) on error, surfacing the error unchanged. -/
def uowExecute {α : Type} (s : Store) (fn : Store → Except Err (Store × α)) :
    Except Err α × Store :=
  match fn s with
  | .ok (s2, a) => (.ok a, s2)
  | .error e => (.error e, s)

/-- Embeds `order.OrderItemInput` (usecase/order dto). -/
structure OrderItemInput where
  productId : Nat
  quantity : Int
deriving Repr, DecidableEq

/-- Embeds `order.CreateOrderInput` (usecase/order dto). -/
structure CreateOrderInput where
  descr : String
  items : List OrderItemInput
deriving Repr, DecidableEq

/-- The body of the loop over `input.Items` inside `order/service.go
Create` (lines 57–90): per line item it checks the quantity, re-reads the
authoritative product, checks stock, persists the decrement through the
transaction-scoped repository, accumulates the running total, and stages an
order item capturing the unit price actually used. -/
def createLoop (now ordId : Nat) (gen : Nat → Nat) :
    List OrderItemInput → Store → ℚ → List OrderItem → Nat →
    Except Err (Store × ℚ × List OrderItem)
  | [], s, total, acc, _ => .ok (s, total, acc)
  | l :: rest, s, total, acc, n =>
    if l.quantity ≤ 0 then .error (.quantityNotPositive l.productId)
    else
      match getByID s l.productId with
      | .error _ => .error .productNotFound
      | .ok product =>
        if product.stock < l.quantity then .error (.insufficientStock product.name)
        else
          match productsUpdate s { product with stock := product.stock - l.quantity,
                                                updatedAt := now } with
          | .error e => .error e
          | .ok s2 =>
              createLoop now ordId gen rest s2 (total + product.price * (l.quantity : ℚ))
                (acc ++ [{ id := gen n, productId := product.id, orderId := ordId,
                           quantity := l.quantity, unitPrice := product.price,
                           createdAt := now, updatedAt := now }]) (n + 1)

/-- Result of one call to the order service `Create`: the returned value,
the post-call store, and how many times `uow.Execute` was invoked. -/
structure OrderCreateResult where
  result : Except Err Order
  store : Store
  executeCalls : Nat

/-- The closure `order/service.go Create` hands to `uow.Execute`: run the
line-item loop, then set the order total, attach the staged items, and
persist the order as one write. -/
def createBody (now ordId : Nat) (gen : Nat → Nat) (dbOk : Bool) (userId : Nat)
    (input : CreateOrderInput) (s0 : Store) : Except Err (Store × Order) :=
  match createLoop now ordId gen input.items s0 0 [] 0 with
  | .error e => .error e
  | .ok (s1, total, staged) =>
      let order : Order :=
        { id := ordId, userId := userId, descr := input.descr.trim,
          totalPrice := total, status := .pending, items := staged,
          createdAt := now, updatedAt := now }
      match ordersCreate s1 order dbOk with
      | .error e => .error e
      | .ok s2 => .ok (s2, order)

/-- Embeds `order/service.go Create`: fail fast on an empty item list before any
transaction is opened; otherwise run the whole loop plus the final order
write inside one `uow.Execute` call and return the populated order. -/
def orderServiceCreate (now ordId : Nat) (gen : Nat → Nat) (dbOk : Bool)
    (userId : Nat) (input : CreateOrderInput) (s : Store) : OrderCreateResult :=
  if input.items.length = 0 then
    { result := .error .emptyOrder, store := s, executeCalls := 0 }
  else
    let r := uowExecute s (createBody now ordId gen dbOk userId input)
    { result := r.1, store := r.2, executeCalls := 1 }

/-- Embeds `product.UpdateProductInput` (usecase/product dto): every field
optional. -/
structure UpdateProductInput where
  name : Option String
  descr : Option String
  price : Option ℚ
  stock : Option Int
  category : Option String

/-- Embeds the `applyUpdate` name block of `product/service.go` (lines 179–214):
trim, reject empty, assign. -/
def applyName (p : Product) : Option String → Except Err Product
  | none => .ok p
  | some nm =>
      if nm.trim.length = 0 then .error (.invalidInput "name cannot be empty")
      else .ok { p with name := nm.trim }

/-- Embeds the `applyUpdate` description block. -/
def applyDescr (p : Product) : Option String → Except Err Product
  | none => .ok p
  | some d =>
      if d.trim.length = 0 then .error (.invalidInput "description cannot be empty")
      else .ok { p with descr := d.trim }

/-- Embeds the `applyUpdate` price block: a non-positive new price is rejected. -/
def applyPrice (p : Product) : Option ℚ → Except Err Product
  | none => .ok p
  | some pr =>
      if pr ≤ 0 then .error (.invalidInput "price must be greater than zero")
      else .ok { p with price := pr }

/-- Embeds the `applyUpdate` stock block: a negative new stock is rejected. -/
def applyStock (p : Product) : Option Int → Except Err Product
  | none => .ok p
  | some st =>
      if st < 0 then .error (.invalidInput "stock must be non-negative")
      else .ok { p with stock := st }

/-- Embeds the `applyUpdate` category block. -/
def applyCategory (p : Product) : Option String → Except Err Product
  | none => .ok p
  | some c =>
      if c.trim.length = 0 then .error (.invalidInput "category cannot be empty")
      else .ok { p with category := c.trim }

/-- Embeds `applyUpdate` of `product/service.go` (lines 179–214): apply each
present field in order after validating it, stopping at the first invalid
one. -/
def applyUpdate (p : Product) (input : UpdateProductInput) : Except Err Product :=
  match applyName p input.name with
  | .error e => .error e
  | .ok p1 =>
    match applyDescr p1 input.descr with
    | .error e => .error e
    | .ok p2 =>
      match applyPrice p2 input.price with
      | .error e => .error e
      | .ok p3 =>
        match applyStock p3 input.stock with
        | .error e => .error e
        | .ok p4 => applyCategory p4 input.category

/-- Result of a product-service call that may mutate the store. -/
structure ProductServiceResult (α : Type) where
  result : Except Err α
  store : Store

/-- Embeds `product/service.go Update` (lines 68–85): load the product (absence
maps to `ErrProductNotFound`), apply the validated field updates, stamp
`UpdatedAt`, and write the row back through the repository. -/
def productServiceUpdate (now : Nat) (s : Store) (pid : Nat) (input : UpdateProductInput) :
    ProductServiceResult Product :=
  match s.products pid with
  | none => { result := .error .productNotFound, store := s }
  | some p =>
    match applyUpdate p input with
    | .error e => { result := .error e, store := s }
    | .ok p2 =>
      let p3 := { p2 with updatedAt := now }
      match productsUpdate s p3 with
      | .error e => { result := .error e, store := s }
      | .ok s2 => { result := .ok p3, store := s2 }

/-- Embeds `product/service.go Delete` (lines 87–106): `ErrProductNotFound` when
the row is absent, `ErrProductHasPendingOrders` when some pending order
item references the product, otherwise delete the row. -/
def productServiceDelete (s : Store) (pid : Nat) : ProductServiceResult Unit :=
  match s.products pid with
  | none => { result := .error .productNotFound, store := s }
  | some _ =>
    if hasPendingOrdersByProductID s pid then
      { result := .error .productHasPendingOrders, store := s }
    else
      match productsDelete s pid with
      | .error e => { result := .error e, store := s }
      | .ok s2 => { result := .ok (), store := s2 }

/-! ### In-memory cache (`pkg/cache`) -/

/-- Embeds `cache.entry`: a stored value with its absolute expiration instant. -/
structure CEntry (α : Type) where
  value : α
  expiration : Nat
deriving Repr, DecidableEq

/-- Embeds `cache.MemoryCache`: the bounded TTL map (the Go map is modelled as an
association list with unique keys where a claim needs uniqueness). -/
structure MemoryCache (α : Type) where
  items : List (String × CEntry α)
  ttl : Nat
  max : Nat
deriving Repr, DecidableEq

/-- Embeds `cache.NewMemoryCache`: a non-positive capacity defaults to 1000. -/
def newMemoryCache (α : Type) (ttl max : Nat) : MemoryCache α :=
  { items := [], ttl := ttl, max := if max = 0 then 1000 else max }

/-- Embeds `MemoryCache.Get`: a key is a hit iff present and
`!time.Now().After(entry.expiration)`; the read mutates nothing. -/
def MemoryCache.get {α : Type} (c : MemoryCache α) (now : Nat) (key : String) : Option α :=
  match c.items.find? fun kv => kv.1 == key with
  | none => none
  | some kv => if kv.2.expiration < now then none else some kv.2.value

/-- The eviction sweep inside `MemoryCache.Set`: delete every entry whose
expiration lies strictly before `now`. -/
def purgeExpired {α : Type} (now : Nat) (l : List (String × CEntry α)) :
    List (String × CEntry α) :=
  l.filter fun kv => decide (now ≤ kv.2.expiration)

/-- Go map assignment `c.items[key] = e`: replace the entry when the key
exists, append it otherwise. -/
def insertEntry {α : Type} (l : List (String × CEntry α)) (key : String) (e : CEntry α) :
    List (String × CEntry α) :=
  if l.any fun kv => kv.1 == key then
    l.map fun kv => if kv.1 == key then (key, e) else kv
  else l ++ [(key, e)]

/-- Embeds `MemoryCache.Set` (pkg/cache lines 387–407): at capacity, first sweep
out the expired entries; if still at capacity, skip the insert; otherwise
store the value with expiration `now + ttl`. -/
def MemoryCache.set {α : Type} (c : MemoryCache α) (now : Nat) (key : String) (value : α) :
    MemoryCache α :=
  let e : CEntry α := { value := value, expiration := now + c.ttl }
  if c.max ≤ c.items.length then
    let purged := purgeExpired now c.items
    if c.max ≤ purged.length then { c with items := purged }
    else { c with items := insertEntry purged key e }
  else { c with items := insertEntry c.items key e }

/-! ### Sliding-window rate limiter (`internal/adapter/middleware`) -/

/-- Embeds `middleware.RateLimitMiddleware`: per-client recorded request
timestamps (a missing map key reads as the empty slice), the ceiling, and
the window length. -/
structure RateLimiter where
  requests : String → List Int
  limit : Nat
  window : Int

/-- Embeds `NewRateLimitMiddleware`. -/
def newRateLimiter (limit : Nat) (window : Int) : RateLimiter :=
  { requests := fun _ => [], limit := limit, window := window }

/-- The in-window predicate of the middleware:
`reqTime.After(now.Add(-window))`, i.e. strictly later than the window
start. -/
def inWindow (window now t : Int) : Bool :=
  decide (now - window < t)

/-- One request through `RateLimitMiddleware.RateLimit` at instant `now`:
drop the out-of-window timestamps for this client, reject when the
remaining count has reached the limit, otherwise record `now` and pass.
Returns (allowed?, new state). -/
def RateLimiter.step (m : RateLimiter) (ip : String) (now : Int) : Bool × RateLimiter :=
  let valid := (m.requests ip).filter (inWindow m.window now)
  if m.limit ≤ valid.length then
    (false, { m with requests := fun k => if k = ip then valid else m.requests k })
  else
    (true, { m with requests := fun k => if k = ip then valid ++ [now] else m.requests k })

/-! ### Derived measures used to state the order-placement theorems -/

/-- Total quantity requested for product `pid` across a list of line
items. -/
def reqSum (L : List OrderItemInput) (pid : Nat) : Int :=
  ((L.filter fun l => l.productId == pid).map OrderItemInput.quantity).sum

/-- Unit price of product `pid` in store `s` (0 when absent; every use is
guarded by an existence hypothesis). -/
def priceOf (s : Store) (pid : Nat) : ℚ :=
  match s.products pid with
  | none => 0
  | some p => p.price

/-- The money total the placement loop accumulates: the sum over the line
items of (unit price in `s`) × quantity. -/
def lineSum (s : Store) : List OrderItemInput → ℚ
  | [] => 0
  | l :: rest => priceOf s l.productId * (l.quantity : ℚ) + lineSum s rest

/-- The order items the placement loop stages, spelled out against the
pre-loop store `s` (the loop never changes a price, so the captured unit
prices are those of `s`). -/
def builtItems (now ordId : Nat) (gen : Nat → Nat) (s : Store) :
    List OrderItemInput → Nat → List OrderItem
  | [], _ => []
  | l :: rest, n =>
      { id := gen n, productId := l.productId, orderId := ordId,
        quantity := l.quantity, unitPrice := priceOf s l.productId,
        createdAt := now, updatedAt := now }
        :: builtItems now ordId gen s rest (n + 1)

/-- Well-formedness of the products table: the row stored under key `pid`
carries `pid` as its primary key (`id = ?` lookup invariant of the real
database). -/
def WFStore (s : Store) : Prop :=
  ∀ pid p, s.products pid = some p → p.id = pid

instance : DecidableEq (Except Err Order) := fun a b =>
  match a, b with
  | .error e1, .error e2 =>
      decidable_of_iff (e1 = e2) (by constructor <;> (intro h; first | rw [h] | injection h))
  | .ok o1, .ok o2 =>
      decidable_of_iff (o1 = o2) (by constructor <;> (intro h; first | rw [h] | injection h))
  | .error _, .ok _ => isFalse fun h => Except.noConfusion h
  | .ok _, .error _ => isFalse fun h => Except.noConfusion h

/-! ### Concrete fixtures used by the witnesses and counterexamples -/

/-- A concrete product: id 1, price 10, stock 5. -/
def pW : Product :=
  { id := 1, name := "gadget", descr := "a gadget", price := 10, stock := 5,
    category := "tools", userId := 7, createdAt := 0, updatedAt := 0 }

/-- A second concrete product with the same name as `pW` but id 2 and
stock 1. -/
def pW2 : Product :=
  { id := 2, name := "gadget", descr := "another gadget", price := 4, stock := 1,
    category := "tools", userId := 7, createdAt := 0, updatedAt := 0 }

/-- A store holding products `pW` (id 1) and `pW2` (id 2) and no orders. -/
def sW : Store :=
  { products := fun k => if k = 1 then some pW else if k = 2 then some pW2 else none,
    orders := [] }

/-- A pending order referencing product 1 with one item. -/
def oW : Order :=
  { id := 50, userId := 7, descr := "", totalPrice := 10, status := .pending,
    items := [{ id := 60, productId := 1, orderId := 50, quantity := 1,
                unitPrice := 10, createdAt := 0, updatedAt := 0 }],
    createdAt := 0, updatedAt := 0 }

/-- Store `sW` together with the pending order `oW`. -/
def sWP : Store :=
  { products := sW.products, orders := [oW] }

/-- A one-slot cache fixture: key "a", value 5, expiring at instant 10. -/
def cW : MemoryCache Nat :=
  { items := [("a", { value := 5, expiration := 10 })], ttl := 4, max := 1 }

/-- The same one-slot cache with the entry already expired at instant 6. -/
def cW2 : MemoryCache Nat :=
  { items := [("a", { value := 5, expiration := 4 })], ttl := 3, max := 1 }

/-- A rate limiter fixture: limit 2, window 10, client "a" recorded at
instants 100 and 105. -/
def mW : RateLimiter :=
  { requests := fun k => if k = "a" then [100, 105] else [], limit := 2, window := 10 }

/-! ## Helper lemmas -/

theorem filter_len_eq {α : Type} (p : α → Bool) :
    ∀ l : List α, (l.filter p).length = l.length → l.filter p = l := by
  intro l
  induction l with
  | nil => intro _; rfl
  | cons a t ih =>
      intro h
      by_cases hp : p a
      · rw [List.filter_cons_of_pos hp] at h ⊢
        rw [List.length_cons, List.length_cons] at h
        rw [ih (Nat.succ_injective h)]
      · rw [List.filter_cons_of_neg (by simpa using hp)] at h
        have h2 := List.length_filter_le p t
        rw [List.length_cons] at h
        omega

theorem filter_len_lt {α : Type} (p : α → Bool) (a : α) :
    ∀ l : List α, a ∈ l → p a = false → (l.filter p).length < l.length := by
  intro l ha hp
  induction l with
  | nil => cases ha
  | cons b t ih =>
      rcases List.mem_cons.mp ha with h | h
      · subst h
        rw [List.filter_cons_of_neg (by simp [hp])]
        have := List.length_filter_le p t
        rw [List.length_cons]
        omega
      · by_cases hb : p b
        · rw [List.filter_cons_of_pos hb, List.length_cons, List.length_cons]
          exact Nat.succ_lt_succ (ih h)
        · rw [List.filter_cons_of_neg (by simpa using hb), List.length_cons]
          have := ih h
          omega

theorem reqSum_nil (pid : Nat) : reqSum [] pid = 0 := rfl

theorem reqSum_cons (l : OrderItemInput) (rest : List OrderItemInput) (pid : Nat) :
    reqSum (l :: rest) pid =
      (if l.productId = pid then l.quantity else 0) + reqSum rest pid := by
  by_cases h : l.productId = pid <;>
    simp [reqSum, List.filter_cons, h]

theorem reqSum_nonneg (L : List OrderItemInput) (pid : Nat)
    (h : ∀ l ∈ L, 0 < l.quantity) : 0 ≤ reqSum L pid := by
  induction L with
  | nil => simp [reqSum_nil]
  | cons a t ih =>
      rw [reqSum_cons]
      have ha := h a (by simp)
      have ht := ih fun x hx => h x (by simp [hx])
      by_cases hp : a.productId = pid <;> simp [hp] <;> omega

theorem reqSum_not_mem (L : List OrderItemInput) (pid : Nat)
    (h : pid ∉ L.map OrderItemInput.productId) : reqSum L pid = 0 := by
  induction L with
  | nil => rfl
  | cons a t ih =>
      simp only [List.map_cons, List.mem_cons] at h
      push_neg at h
      rw [reqSum_cons, if_neg fun he => h.1 he.symm, ih h.2]
      simp

theorem lineSum_congr (s1 s : Store) (h : ∀ pid, priceOf s1 pid = priceOf s pid) :
    ∀ L, lineSum s1 L = lineSum s L := by
  intro L
  induction L with
  | nil => rfl
  | cons a t ih => rw [lineSum, lineSum, h, ih]

theorem builtItems_congr (now ordId : Nat) (gen : Nat → Nat) (s1 s : Store)
    (h : ∀ pid, priceOf s1 pid = priceOf s pid) :
    ∀ L n, builtItems now ordId gen s1 L n = builtItems now ordId gen s L n := by
  intro L
  induction L with
  | nil => intro n; rfl
  | cons a t ih => intro n; rw [builtItems, builtItems, h, ih]

theorem getByID_some (s : Store) (pid : Nat) (p : Product)
    (h : s.products pid = some p) : getByID s pid = .ok p := by
  unfold getByID; rw [h]

theorem getByID_none (s : Store) (pid : Nat)
    (h : s.products pid = none) : getByID s pid = .error .productNotFound := by
  unfold getByID; rw [h]

theorem productsUpdate_eq (s : Store) (p old : Product)
    (h : s.products p.id = some old) :
    productsUpdate s p =
      .ok { s with products := fun k => if k = p.id then some (applyColumns old p) else s.products k } := by
  unfold productsUpdate; rw [h]

theorem applyColumns_decrement (p : Product) (st : Int) (t : Nat) :
    applyColumns p { p with stock := st, updatedAt := t } =
      { p with stock := st, updatedAt := t } := rfl

theorem productsUpdate_dec (s : Store) (product : Product) (qty : Int) (now : Nat)
    (h : s.products product.id = some product) :
    productsUpdate s { product with stock := product.stock - qty, updatedAt := now } =
      .ok { s with products := fun k =>
              if k = product.id then
                some { product with stock := product.stock - qty, updatedAt := now }
              else s.products k } := by
  have h2 := productsUpdate_eq s
    { product with stock := product.stock - qty, updatedAt := now } product h
  rw [applyColumns_decrement] at h2
  exact h2

/-- Core invariant of the placement loop: when every line item has positive
quantity, references an existing product, and the per-product requested
totals fit into the available stock, the loop succeeds, accumulates exactly
the sum of (unit price at entry) × quantity, stages the order items with
those prices, and decrements each referenced product's stock by the total
quantity requested for it (stamping its `updatedAt`), touching nothing
else. -/
theorem createLoop_ok (now ordId : Nat) (gen : Nat → Nat) :
    ∀ (L : List OrderItemInput) (s : Store) (total : ℚ) (acc : List OrderItem) (n : Nat),
      WFStore s →
      (∀ l ∈ L, 0 < l.quantity) →
      (∀ l ∈ L, (s.products l.productId).isSome) →
      (∀ l ∈ L, ∀ p, s.products l.productId = some p → reqSum L l.productId ≤ p.stock) →
      ∃ sFin,
        createLoop now ordId gen L s total acc n =
          .ok (sFin, total + lineSum s L, acc ++ builtItems now ordId gen s L n) ∧
        (∀ pid, s.products pid = none → sFin.products pid = none) ∧
        (∀ pid p, s.products pid = some p →
          sFin.products pid =
            some (if pid ∈ L.map OrderItemInput.productId then
                    { p with stock := p.stock - reqSum L pid, updatedAt := now }
                  else p)) ∧
        sFin.orders = s.orders := by
  intro L
  induction L with
  | nil =>
      intro s total acc n _ _ _ _
      refine ⟨s, ?_, fun pid h => h, fun pid p h => by simp [h], rfl⟩
      simp [createLoop, lineSum, builtItems]
  | cons l t ih =>
      intro s total acc n hWF hpos hex hbound
      have hq : ¬ l.quantity ≤ 0 := by
        have := hpos l (by simp)
        omega
      obtain ⟨product, hprod⟩ : ∃ p, s.products l.productId = some p := by
        have hs := hex l (by simp)
        cases hp : s.products l.productId
        · rw [hp] at hs; simp at hs
        · exact ⟨_, rfl⟩
      have hid : product.id = l.productId := hWF _ _ hprod
      have hrs0 : 0 ≤ reqSum t l.productId :=
        reqSum_nonneg t _ fun x hx => hpos x (by simp [hx])
      have hstock : l.quantity ≤ product.stock := by
        have hb := hbound l (by simp) product hprod
        rw [reqSum_cons, if_pos rfl] at hb
        omega
      have hstock2 : ¬ product.stock < l.quantity := by omega
      have hget : getByID s l.productId = .ok product := getByID_some _ _ _ hprod
      -- the persisted decrement of the head item
      have hup := productsUpdate_dec s product l.quantity now (by rw [hid]; exact hprod)
      set s1 : Store :=
        { s with products := fun k =>
            if k = product.id then
              some { product with stock := product.stock - l.quantity, updatedAt := now }
            else s.products k } with hs1def
      have hs1at : ∀ pid, s1.products pid =
          if pid = l.productId then
            some { product with stock := product.stock - l.quantity, updatedAt := now }
          else s.products pid := by
        intro pid
        show (if pid = product.id then
                some { product with stock := product.stock - l.quantity, updatedAt := now }
              else s.products pid) = _
        rw [hid]
      have hWF1 : WFStore s1 := by
        intro pid p h
        rw [hs1at] at h
        by_cases hk : pid = l.productId
        · rw [if_pos hk] at h
          cases h
          exact hk ▸ hid
        · rw [if_neg hk] at h
          exact hWF _ _ h
      have hprice1 : ∀ pid, priceOf s1 pid = priceOf s pid := by
        intro pid
        unfold priceOf
        rw [hs1at]
        by_cases hk : pid = l.productId
        · rw [if_pos hk, hk, hprod]
        · rw [if_neg hk]
      have hex1 : ∀ x ∈ t, (s1.products x.productId).isSome := by
        intro x hx
        rw [hs1at]
        by_cases hk : x.productId = l.productId
        · rw [if_pos hk]; rfl
        · rw [if_neg hk]
          exact hex x (by simp [hx])
      have hbound1 : ∀ x ∈ t, ∀ p, s1.products x.productId = some p →
          reqSum t x.productId ≤ p.stock := by
        intro x hx p h
        rw [hs1at] at h
        by_cases hk : x.productId = l.productId
        · rw [if_pos hk] at h
          cases h
          have hb := hbound l (by simp) product hprod
          rw [reqSum_cons, if_pos rfl] at hb
          have hsame : reqSum t x.productId = reqSum t l.productId := by rw [hk]
          rw [hsame]
          show reqSum t l.productId ≤ product.stock - l.quantity
          omega
        · rw [if_neg hk] at h
          have hb := hbound x (by simp [hx]) p h
          rw [reqSum_cons, if_neg fun he => hk he.symm] at hb
          omega
      obtain ⟨sFin, hrun, hnone1, hsome1, horders1⟩ :=
        ih s1 (total + product.price * (l.quantity : ℚ))
          (acc ++ [{ id := gen n, productId := product.id, orderId := ordId,
                     quantity := l.quantity, unitPrice := product.price,
                     createdAt := now, updatedAt := now }]) (n + 1)
          hWF1 (fun x hx => hpos x (by simp [hx])) hex1 hbound1
      have hpr : priceOf s l.productId = product.price := by
        unfold priceOf; rw [hprod]
      refine ⟨sFin, ?_, ?_, ?_, by rw [horders1]⟩
      · -- the run equation for l :: t
        have hT : total + product.price * (l.quantity : ℚ) + lineSum s1 t =
            total + lineSum s (l :: t) := by
          rw [lineSum_congr s1 s hprice1 t]
          show _ = total + (priceOf s l.productId * (l.quantity : ℚ) + lineSum s t)
          rw [hpr, add_assoc]
        have hA : (acc ++ [{ id := gen n, productId := product.id, orderId := ordId,
                             quantity := l.quantity, unitPrice := product.price,
                             createdAt := now, updatedAt := now }]) ++
              builtItems now ordId gen s1 t (n + 1) =
            acc ++ builtItems now ordId gen s (l :: t) n := by
          rw [builtItems_congr now ordId gen s1 s hprice1 t (n + 1), List.append_assoc]
          show _ = acc ++ ({ id := gen n, productId := l.productId, orderId := ordId,
                             quantity := l.quantity, unitPrice := priceOf s l.productId,
                             createdAt := now, updatedAt := now }
                            :: builtItems now ordId gen s t (n + 1))
          rw [hpr, ← hid]
          rfl
        simp only [createLoop, if_neg hq, hget, if_neg hstock2, hup]
        rw [hrun, hT, hA]
      · intro pid h
        apply hnone1
        rw [hs1at]
        by_cases hk : pid = l.productId
        · rw [hk] at h
          rw [h] at hprod
          exact Option.noConfusion hprod
        · rw [if_neg hk]
          exact h
      · intro pid p h
        by_cases hk : pid = l.productId
        · subst hk
          have hpp : product = p := by
            rw [hprod] at h
            injection h
          subst hpp
          have hmem : l.productId ∈ (l :: t).map OrderItemInput.productId := by
            simp
          rw [if_pos hmem]
          have hs1 := hsome1 l.productId
            { product with stock := product.stock - l.quantity, updatedAt := now }
            (by rw [hs1at, if_pos rfl])
          rw [hs1]
          by_cases hm : l.productId ∈ t.map OrderItemInput.productId
          · rw [if_pos hm]
            have harith : product.stock - l.quantity - reqSum t l.productId =
                product.stock - reqSum (l :: t) l.productId := by
              rw [reqSum_cons, if_pos rfl, sub_sub]
            show some { product with
                          stock := product.stock - l.quantity - reqSum t l.productId,
                          updatedAt := now } = _
            rw [harith]
          · rw [if_neg hm]
            have harith : product.stock - l.quantity =
                product.stock - reqSum (l :: t) l.productId := by
              rw [reqSum_cons, if_pos rfl, reqSum_not_mem t l.productId hm]
              simp
            show some { product with
                          stock := product.stock - l.quantity,
                          updatedAt := now } = _
            rw [harith]
        · have hs1v := hsome1 pid p (by rw [hs1at, if_neg hk]; exact h)
          rw [hs1v]
          have hrq : reqSum (l :: t) pid = reqSum t pid := by
            rw [reqSum_cons, if_neg fun he => hk he.symm]
            simp
          by_cases hm : pid ∈ t.map OrderItemInput.productId
          · rw [if_pos hm, if_pos (by simp [hm]), hrq]
          · rw [if_neg hm, if_neg (by
              simp only [List.map_cons, List.mem_cons]
              push_neg
              exact ⟨hk, hm⟩)]

theorem uowExecute_error {α : Type} (s : Store) (fn : Store → Except Err (Store × α))
    (e : Err) (h : (uowExecute s fn).1 = .error e) : (uowExecute s fn).2 = s := by
  unfold uowExecute at h ⊢
  cases hfn : fn s with
  | ok x =>
      obtain ⟨s2, a⟩ := x
      rw [hfn] at h
      exact absurd h (by simp)
  | error e2 => rfl

theorem orderServiceCreate_pos (now ordId : Nat) (gen : Nat → Nat) (dbOk : Bool)
    (userId : Nat) (input : CreateOrderInput) (s : Store)
    (h : ¬ input.items.length = 0) :
    orderServiceCreate now ordId gen dbOk userId input s =
      { result := (uowExecute s (createBody now ordId gen dbOk userId input)).1,
        store := (uowExecute s (createBody now ordId gen dbOk userId input)).2,
        executeCalls := 1 } := by
  unfold orderServiceCreate
  rw [if_neg h]

theorem createLoop_append (now ordId : Nat) (gen : Nat → Nat) :
    ∀ (L1 L2 : List OrderItemInput) (s : Store) (total : ℚ) (acc : List OrderItem) (n : Nat),
      createLoop now ordId gen (L1 ++ L2) s total acc n =
        match createLoop now ordId gen L1 s total acc n with
        | .error e => .error e
        | .ok (s1, t1, a1) => createLoop now ordId gen L2 s1 t1 a1 (n + L1.length) := by
  intro L1
  induction L1 with
  | nil =>
      intro L2 s total acc n
      simp [createLoop]
  | cons l t ih =>
      intro L2 s total acc n
      rw [List.cons_append]
      simp only [createLoop]
      by_cases hq : l.quantity ≤ 0
      · simp only [if_pos hq]
      · simp only [if_neg hq]
        cases hget : getByID s l.productId with
        | error e => rfl
        | ok product =>
            dsimp only
            by_cases hst : product.stock < l.quantity
            · simp only [if_pos hst]
            · simp only [if_neg hst]
              cases hup : productsUpdate s
                  { product with stock := product.stock - l.quantity, updatedAt := now } with
              | error e => rfl
              | ok s2 =>
                  dsimp only
                  rw [ih]
                  have harr : n + 1 + t.length = n + (t.length + 1) := by omega
                  rw [harr, List.length_cons]

/-! ## C1 — atomicity of order placement -/

/-- C1: for every order request, whenever `Create` returns an error — a
failing line item (non-positive quantity, missing product, insufficient
stock) or a failing final order write — the store is exactly the pre-call
store: no product row (hence no stock) is changed and, provided the
attempted order's identity is fresh, no order row with that identity
exists. -/
theorem create_atomic_on_error (now ordId : Nat) (gen : Nat → Nat) (dbOk : Bool)
    (userId : Nat) (input : CreateOrderInput) (s : Store) (e : Err)
    (h : (orderServiceCreate now ordId gen dbOk userId input s).result = .error e) :
    (orderServiceCreate now ordId gen dbOk userId input s).store = s ∧
    (∀ pid, (orderServiceCreate now ordId gen dbOk userId input s).store.products pid =
      s.products pid) ∧
    ((∀ o ∈ s.orders, o.id ≠ ordId) →
      ∀ o ∈ (orderServiceCreate now ordId gen dbOk userId input s).store.orders,
        o.id ≠ ordId) := by
  have hstore : (orderServiceCreate now ordId gen dbOk userId input s).store = s := by
    by_cases hlen : input.items.length = 0
    · unfold orderServiceCreate
      rw [if_pos hlen]
    · rw [orderServiceCreate_pos now ordId gen dbOk userId input s hlen] at h ⊢
      exact uowExecute_error s _ e h
  refine ⟨hstore, ?_, ?_⟩
  · intro pid
    rw [hstore]
  · intro hfresh o ho
    rw [hstore] at ho
    exact hfresh o ho

/-- Witness for C1: with product 1 at stock 5, requesting quantity 9 fails
and the store is untouched. -/
theorem create_atomic_on_error_witness :
    (orderServiceCreate 3 100 (fun n => 200 + n) true 7
        { descr := "", items := [{ productId := 1, quantity := 9 }] } sW).store = sW :=
  (create_atomic_on_error 3 100 (fun n => 200 + n) true 7
    { descr := "", items := [{ productId := 1, quantity := 9 }] } sW
    (.insufficientStock "gadget") (by rfl)).1

/-! ## C5 — empty cart fails fast, before any transaction -/

/-- C5: a request with an empty item list fails with the validation error
before `uow.Execute` is ever invoked, and the store is untouched. -/
theorem create_empty_fails_fast (now ordId : Nat) (gen : Nat → Nat) (dbOk : Bool)
    (userId : Nat) (input : CreateOrderInput) (s : Store) (h : input.items = []) :
    (orderServiceCreate now ordId gen dbOk userId input s).result = .error .emptyOrder ∧
    (orderServiceCreate now ordId gen dbOk userId input s).executeCalls = 0 ∧
    (orderServiceCreate now ordId gen dbOk userId input s).store = s := by
  have hlen : input.items.length = 0 := by rw [h]; rfl
  unfold orderServiceCreate
  rw [if_pos hlen]
  exact ⟨rfl, rfl, rfl⟩

/-- Witness for C5 at a concrete empty request. -/
theorem create_empty_fails_fast_witness :
    (orderServiceCreate 3 100 (fun n => 200 + n) true 7
        { descr := "x", items := [] } sW).result = .error .emptyOrder ∧
    (orderServiceCreate 3 100 (fun n => 200 + n) true 7
        { descr := "x", items := [] } sW).executeCalls = 0 ∧
    (orderServiceCreate 3 100 (fun n => 200 + n) true 7
        { descr := "x", items := [] } sW).store = sW :=
  create_empty_fails_fast 3 100 (fun n => 200 + n) true 7
    { descr := "x", items := [] } sW rfl

theorem sW_WF : WFStore sW := by
  intro pid p h
  simp only [sW] at h
  split_ifs at h with h1 h2
  · injection h with h3
    subst h3
    rw [h1]
    rfl
  · injection h with h3
    subst h3
    rw [h2]
    rfl

/-! ## C3 — successful-placement postcondition -/

/-- C3: when every line item has positive quantity, references an existing
product, and the per-product requested totals fit into the current stock,
`Create` succeeds with a `pending` order whose total price is the sum over
the line items of (unit price at purchase time × quantity), whose stored
items capture those unit prices (`builtItems`), and every referenced
product's stock is decremented by exactly the total quantity requested for
it while unreferenced products and rows are untouched. -/
theorem create_success_postcondition (now ordId : Nat) (gen : Nat → Nat)
    (userId : Nat) (input : CreateOrderInput) (s : Store)
    (hWF : WFStore s)
    (hne : ¬ input.items = [])
    (hpos : ∀ l ∈ input.items, 0 < l.quantity)
    (hex : ∀ l ∈ input.items, (s.products l.productId).isSome)
    (hbound : ∀ l ∈ input.items, ∀ p, s.products l.productId = some p →
        reqSum input.items l.productId ≤ p.stock) :
    ∃ order,
      (orderServiceCreate now ordId gen true userId input s).result = .ok order ∧
      order.id = ordId ∧
      order.userId = userId ∧
      order.status = .pending ∧
      order.totalPrice = lineSum s input.items ∧
      order.items = builtItems now ordId gen s input.items 0 ∧
      (orderServiceCreate now ordId gen true userId input s).store.orders =
        s.orders ++ [order] ∧
      (∀ pid p, s.products pid = some p →
        (orderServiceCreate now ordId gen true userId input s).store.products pid =
          some (if pid ∈ input.items.map OrderItemInput.productId then
                  { p with stock := p.stock - reqSum input.items pid, updatedAt := now }
                else p)) ∧
      (∀ pid, s.products pid = none →
        (orderServiceCreate now ordId gen true userId input s).store.products pid = none) := by
  obtain ⟨sFin, hrun, hnone, hsome, horders⟩ :=
    createLoop_ok now ordId gen input.items s 0 [] 0 hWF hpos hex hbound
  have hlen : ¬ input.items.length = 0 := by
    intro h0
    exact hne (List.length_eq_zero.mp h0)
  rw [orderServiceCreate_pos now ordId gen true userId input s hlen]
  have hbody : createBody now ordId gen true userId input s =
      .ok ({ sFin with orders := sFin.orders ++
               [{ id := ordId, userId := userId, descr := input.descr.trim,
                  totalPrice := 0 + lineSum s input.items, status := .pending,
                  items := [] ++ builtItems now ordId gen s input.items 0,
                  createdAt := now, updatedAt := now }] },
            { id := ordId, userId := userId, descr := input.descr.trim,
              totalPrice := 0 + lineSum s input.items, status := .pending,
              items := [] ++ builtItems now ordId gen s input.items 0,
              createdAt := now, updatedAt := now }) := by
    unfold createBody
    rw [hrun]
    rfl
  have hexec : uowExecute s (createBody now ordId gen true userId input) =
      (.ok { id := ordId, userId := userId, descr := input.descr.trim,
             totalPrice := 0 + lineSum s input.items, status := .pending,
             items := [] ++ builtItems now ordId gen s input.items 0,
             createdAt := now, updatedAt := now },
       { sFin with orders := sFin.orders ++
           [{ id := ordId, userId := userId, descr := input.descr.trim,
              totalPrice := 0 + lineSum s input.items, status := .pending,
              items := [] ++ builtItems now ordId gen s input.items 0,
              createdAt := now, updatedAt := now }] }) := by
    unfold uowExecute
    rw [hbody]
  refine ⟨{ id := ordId, userId := userId, descr := input.descr.trim,
            totalPrice := 0 + lineSum s input.items, status := .pending,
            items := [] ++ builtItems now ordId gen s input.items 0,
            createdAt := now, updatedAt := now },
          ?_, rfl, rfl, rfl, zero_add _, List.nil_append _, ?_, ?_, ?_⟩
  · show (uowExecute s (createBody now ordId gen true userId input)).1 = _
    rw [hexec]
  · show (uowExecute s (createBody now ordId gen true userId input)).2.orders = _
    rw [hexec]
    show sFin.orders ++ _ = _
    rw [horders]
  · intro pid p hp
    show (uowExecute s (createBody now ordId gen true userId input)).2.products pid = _
    rw [hexec]
    exact hsome pid p hp
  · intro pid hp
    show (uowExecute s (createBody now ordId gen true userId input)).2.products pid = _
    rw [hexec]
    exact hnone pid hp

/-- Witness for C3, the spec scenario: stock 5, quantity 3, unit price 10
gives a pending order with total 30 and resulting stock 2. -/
theorem create_success_postcondition_witness :
    ∃ order,
      (orderServiceCreate 3 100 (fun n => 200 + n) true 7
          { descr := "", items := [{ productId := 1, quantity := 3 }] } sW).result =
        .ok order ∧
      order.totalPrice = 30 ∧
      order.status = .pending ∧
      (orderServiceCreate 3 100 (fun n => 200 + n) true 7
          { descr := "", items := [{ productId := 1, quantity := 3 }] } sW).store.products 1 =
        some { pW with stock := 2, updatedAt := 3 } := by
  obtain ⟨order, hres, hid, huid, hstat, htot, hitems, hord, hsome, hnone⟩ :=
    create_success_postcondition 3 100 (fun n => 200 + n) 7
      { descr := "", items := [{ productId := 1, quantity := 3 }] } sW sW_WF
      (by decide) (by decide) (by decide)
      (by
        intro l hl p hp
        have hl2 : l = { productId := 1, quantity := 3 } := by
          simpa using hl
        subst hl2
        have hp2 : some p = some pW := hp.symm.trans (by rfl)
        injection hp2 with hp3
        subst hp3
        decide)
  refine ⟨order, hres, ?_, hstat, ?_⟩
  · rw [htot]
    norm_num [lineSum, priceOf, sW, pW]
  · rw [hsome 1 pW (by rfl)]
    norm_num [reqSum, pW]

/-! ## C2 — same-product double line -/

/-- C2: a cart holding the same product twice with quantities `q1`, `q2`
where `q1 + q2` exceeds the available stock fails as a whole with the
insufficient-stock error and leaves the store untouched — the first line's
decrement is persisted inside the transaction, so the second read sees the
already-reduced stock — even though `q1` alone would have succeeded. -/
theorem create_double_line_insufficient (now ordId : Nat) (gen : Nat → Nat) (dbOk : Bool)
    (userId : Nat) (d : String) (s : Store) (pid : Nat) (p : Product) (q1 q2 : Int)
    (hp : s.products pid = some p) (hpid : p.id = pid)
    (hq1 : 0 < q1) (hq1s : q1 ≤ p.stock) (hsum : p.stock < q1 + q2) :
    (orderServiceCreate now ordId gen dbOk userId
        { descr := d, items := [{ productId := pid, quantity := q1 },
                                { productId := pid, quantity := q2 }] } s).result =
      .error (.insufficientStock p.name) ∧
    (orderServiceCreate now ordId gen dbOk userId
        { descr := d, items := [{ productId := pid, quantity := q1 },
                                { productId := pid, quantity := q2 }] } s).store = s ∧
    (∃ order, (orderServiceCreate now ordId gen true userId
        { descr := d, items := [{ productId := pid, quantity := q1 }] } s).result =
      .ok order) := by
  have hq1n : ¬ q1 ≤ 0 := by omega
  have hq2n : ¬ q2 ≤ 0 := by omega
  have hns1 : ¬ p.stock < q1 := by omega
  have hget1 : getByID s pid = .ok p := getByID_some _ _ _ hp
  have hup1 := productsUpdate_dec s p q1 now (by rw [hpid]; exact hp)
  have hget2 : getByID
      { s with products := fun k =>
          if k = p.id then some { p with stock := p.stock - q1, updatedAt := now }
          else s.products k } pid = .ok { p with stock := p.stock - q1, updatedAt := now } := by
    apply getByID_some
    show (if pid = p.id then some { p with stock := p.stock - q1, updatedAt := now }
          else s.products pid) = _
    rw [if_pos hpid.symm]
  have hins2 : ({ p with stock := p.stock - q1, updatedAt := now } : Product).stock < q2 := by
    show p.stock - q1 < q2
    omega
  have hloop : createLoop now ordId gen
      [{ productId := pid, quantity := q1 }, { productId := pid, quantity := q2 }] s 0 [] 0 =
      .error (.insufficientStock p.name) := by
    simp only [createLoop, if_neg hq1n, hget1, if_neg hns1, hup1, if_neg hq2n, hget2,
      if_pos hins2]
  have hbody : createBody now ordId gen dbOk userId
      { descr := d, items := [{ productId := pid, quantity := q1 },
                              { productId := pid, quantity := q2 }] } s =
      .error (.insufficientStock p.name) := by
    unfold createBody
    rw [hloop]
  have hexec : uowExecute s (createBody now ordId gen dbOk userId
      { descr := d, items := [{ productId := pid, quantity := q1 },
                              { productId := pid, quantity := q2 }] }) =
      (.error (.insufficientStock p.name), s) := by
    unfold uowExecute
    rw [hbody]
  have hlen2 : ¬ ([{ productId := pid, quantity := q1 },
                   { productId := pid, quantity := q2 }] : List OrderItemInput).length = 0 := by
    simp
  refine ⟨?_, ?_, ?_⟩
  · rw [orderServiceCreate_pos now ordId gen dbOk userId _ s hlen2]
    show (uowExecute s (createBody now ordId gen dbOk userId _)).1 = _
    rw [hexec]
  · rw [orderServiceCreate_pos now ordId gen dbOk userId _ s hlen2]
    show (uowExecute s (createBody now ordId gen dbOk userId _)).2 = _
    rw [hexec]
  · -- q1 alone succeeds
    have hloop1 : createLoop now ordId gen [{ productId := pid, quantity := q1 }] s 0 [] 0 =
        .ok ({ s with products := fun k =>
                 if k = p.id then some { p with stock := p.stock - q1, updatedAt := now }
                 else s.products k },
             0 + p.price * (q1 : ℚ),
             [] ++ [{ id := gen 0, productId := p.id, orderId := ordId, quantity := q1,
                      unitPrice := p.price, createdAt := now, updatedAt := now }]) := by
      simp only [createLoop, if_neg hq1n, hget1, if_neg hns1, hup1]
    have hlen1 : ¬ ([{ productId := pid, quantity := q1 }] : List OrderItemInput).length = 0 := by
      simp
    rw [orderServiceCreate_pos now ordId gen true userId _ s hlen1]
    have hbody1 : createBody now ordId gen true userId
        { descr := d, items := [{ productId := pid, quantity := q1 }] } s =
        .ok ({ products := fun k =>
                 if k = p.id then some { p with stock := p.stock - q1, updatedAt := now }
                 else s.products k,
               orders := s.orders ++
                 [{ id := ordId, userId := userId, descr := d.trim,
                    totalPrice := 0 + p.price * (q1 : ℚ), status := .pending,
                    items := [] ++ [{ id := gen 0, productId := p.id, orderId := ordId,
                                      quantity := q1, unitPrice := p.price,
                                      createdAt := now, updatedAt := now }],
                    createdAt := now, updatedAt := now }] },
             { id := ordId, userId := userId, descr := d.trim,
               totalPrice := 0 + p.price * (q1 : ℚ), status := .pending,
               items := [] ++ [{ id := gen 0, productId := p.id, orderId := ordId,
                                 quantity := q1, unitPrice := p.price,
                                 createdAt := now, updatedAt := now }],
               createdAt := now, updatedAt := now }) := by
      unfold createBody
      rw [hloop1]
      rfl
    refine ⟨{ id := ordId, userId := userId, descr := d.trim,
              totalPrice := 0 + p.price * (q1 : ℚ), status := .pending,
              items := [] ++ [{ id := gen 0, productId := p.id, orderId := ordId,
                                quantity := q1, unitPrice := p.price,
                                createdAt := now, updatedAt := now }],
              createdAt := now, updatedAt := now }, ?_⟩
    show (uowExecute s (createBody now ordId gen true userId _)).1 = _
    unfold uowExecute
    rw [hbody1]

/-- Witness for C2: product 1 has stock 5; the cart [(1, 3), (1, 3)] fails
with the insufficient-stock error and leaves the store untouched. -/
theorem create_double_line_insufficient_witness :
    (orderServiceCreate 3 100 (fun n => 200 + n) true 7
        { descr := "", items := [{ productId := 1, quantity := 3 },
                                 { productId := 1, quantity := 3 }] } sW).result =
      .error (.insufficientStock "gadget") ∧
    (orderServiceCreate 3 100 (fun n => 200 + n) true 7
        { descr := "", items := [{ productId := 1, quantity := 3 },
                                 { productId := 1, quantity := 3 }] } sW).store = sW :=
  ⟨(create_double_line_insufficient 3 100 (fun n => 200 + n) true 7 "" sW 1 pW 3 3
      rfl rfl (by decide) (by decide) (by decide)).1,
   (create_double_line_insufficient 3 100 (fun n => 200 + n) true 7 "" sW 1 pW 3 3
      rfl rfl (by decide) (by decide) (by decide)).2.1⟩

/-! ## C4 — insufficient stock error -/

/-- Counterexample to C4 as stated: the request
`[(product 99, qty 1), (product 1, qty 7)]` against `sW` (product 1 has
stock 5) contains a line item whose quantity exceeds the product's stock,
yet `Create` fails with the earlier line's `productNotFound` error — not
with an insufficient-stock error, and nothing in the returned error names
product 1. -/
theorem create_insufficient_claim_cex :
    (orderServiceCreate 3 100 (fun n => 200 + n) true 7
        { descr := "", items := [{ productId := 99, quantity := 1 },
                                 { productId := 1, quantity := 7 }] } sW).result =
      .error .productNotFound ∧
    (orderServiceCreate 3 100 (fun n => 200 + n) true 7
        { descr := "", items := [{ productId := 99, quantity := 1 },
                                 { productId := 1, quantity := 7 }] } sW).result ≠
      .error (.insufficientStock "gadget") := by
  constructor
  · rfl
  · intro h
    have h2 : Err.productNotFound = Err.insufficientStock "gadget" := by
      have h3 := (rfl :
        (orderServiceCreate 3 100 (fun n => 200 + n) true 7
            { descr := "", items := [{ productId := 99, quantity := 1 },
                                     { productId := 1, quantity := 7 }] } sW).result =
          .error .productNotFound)
      rw [h3] at h
      injection h
    cases h2

/-- C4 as amended: when the first failing line item of the request is one
whose quantity exceeds the product's then-current stock — every earlier
line has positive quantity, references an existing product, and fits into
stock — `Create` fails with the distinguishable insufficient-stock error
carrying the offending product's *name*, and the transaction is aborted
(the store is the pre-call store). -/
theorem create_insufficient_stock_error (now ordId : Nat) (gen : Nat → Nat) (dbOk : Bool)
    (userId : Nat) (input : CreateOrderInput) (s : Store)
    (pre : List OrderItemInput) (bad : OrderItemInput) (rest : List OrderItemInput)
    (hsplit : input.items = pre ++ bad :: rest)
    (hWF : WFStore s)
    (hpos : ∀ l ∈ pre, 0 < l.quantity)
    (hex : ∀ l ∈ pre, (s.products l.productId).isSome)
    (hbound : ∀ l ∈ pre, ∀ p, s.products l.productId = some p →
        reqSum pre l.productId ≤ p.stock)
    (hbq : 0 < bad.quantity)
    (pbad : Product) (hpb : s.products bad.productId = some pbad)
    (hins : pbad.stock - reqSum pre bad.productId < bad.quantity) :
    (orderServiceCreate now ordId gen dbOk userId input s).result =
      .error (.insufficientStock pbad.name) ∧
    (orderServiceCreate now ordId gen dbOk userId input s).store = s := by
  obtain ⟨sFin, hrun, hnone, hsome, horders⟩ :=
    createLoop_ok now ordId gen pre s 0 [] 0 hWF hpos hex hbound
  obtain ⟨P, hPf, hPname, hPstock⟩ :
      ∃ P, sFin.products bad.productId = some P ∧ P.name = pbad.name ∧
        P.stock < bad.quantity := by
    have hchar := hsome bad.productId pbad hpb
    by_cases hm : bad.productId ∈ pre.map OrderItemInput.productId
    · rw [if_pos hm] at hchar
      exact ⟨_, hchar, rfl, hins⟩
    · rw [if_neg hm] at hchar
      refine ⟨pbad, hchar, rfl, ?_⟩
      have h0 := reqSum_not_mem pre bad.productId hm
      omega
  have hbqn : ¬ bad.quantity ≤ 0 := by omega
  have hloopbad : createLoop now ordId gen (bad :: rest) sFin
      (0 + lineSum s pre) ([] ++ builtItems now ordId gen s pre 0) (0 + pre.length) =
      .error (.insufficientStock P.name) := by
    simp only [createLoop, if_neg hbqn, getByID_some sFin bad.productId P hPf,
      if_pos hPstock]
  have hloopAll : createLoop now ordId gen input.items s 0 [] 0 =
      .error (.insufficientStock pbad.name) := by
    rw [hsplit, createLoop_append, hrun]
    dsimp only
    rw [hloopbad, hPname]
  have hlen : ¬ input.items.length = 0 := by
    rw [hsplit]
    simp
  have hbody : createBody now ordId gen dbOk userId input s =
      .error (.insufficientStock pbad.name) := by
    unfold createBody
    rw [hloopAll]
  have hexec : uowExecute s (createBody now ordId gen dbOk userId input) =
      (.error (.insufficientStock pbad.name), s) := by
    unfold uowExecute
    rw [hbody]
  rw [orderServiceCreate_pos now ordId gen dbOk userId input s hlen]
  constructor
  · show (uowExecute s (createBody now ordId gen dbOk userId input)).1 = _
    rw [hexec]
  · show (uowExecute s (createBody now ordId gen dbOk userId input)).2 = _
    rw [hexec]

/-- Witness for the amended C4, the spec scenario: stock 2, quantity 3
fails with the insufficient-stock error naming the product and leaves the
stock at 2. -/
theorem create_insufficient_stock_error_witness :
    (orderServiceCreate 3 100 (fun n => 200 + n) true 7
        { descr := "", items := [{ productId := 2, quantity := 3 }] } sW).result =
      .error (.insufficientStock "gadget") ∧
    (orderServiceCreate 3 100 (fun n => 200 + n) true 7
        { descr := "", items := [{ productId := 2, quantity := 3 }] } sW).store = sW :=
  create_insufficient_stock_error 3 100 (fun n => 200 + n) true 7
    { descr := "", items := [{ productId := 2, quantity := 3 }] } sW
    [] { productId := 2, quantity := 3 } [] rfl sW_WF
    (by intro l hl; cases hl) (by intro l hl; cases hl)
    (by intro l hl; cases hl)
    (by decide) pW2 rfl (by decide)

/-! ## C6 — pending-order deletion guard -/

theorem productServiceDelete_none (s : Store) (pid : Nat)
    (h : s.products pid = none) :
    productServiceDelete s pid = { result := .error .productNotFound, store := s } := by
  unfold productServiceDelete
  rw [h]

theorem productServiceDelete_pending (s : Store) (pid : Nat) (p : Product)
    (h : s.products pid = some p)
    (hp : hasPendingOrdersByProductID s pid = true) :
    productServiceDelete s pid =
      { result := .error .productHasPendingOrders, store := s } := by
  unfold productServiceDelete
  rw [h]
  dsimp only
  rw [if_pos hp]

theorem productServiceDelete_ok (s : Store) (pid : Nat) (p : Product)
    (h : s.products pid = some p)
    (hp : hasPendingOrdersByProductID s pid = false) :
    productServiceDelete s pid =
      { result := .ok (),
        store := { s with products := fun k => if k = pid then none else s.products k } } := by
  unfold productServiceDelete
  rw [h]
  dsimp only
  rw [if_neg (by simp [hp])]
  unfold productsDelete
  rw [h]

/-- C6: `DeleteProduct` fails with NotFound when no row with that id exists
(so deleting an already-deleted product again returns NotFound, never
success), fails with the distinguishable pending-orders error and removes
nothing when some pending order item references the product, and only when
both checks pass does it delete exactly that row. -/
theorem delete_pending_guard (s : Store) (pid : Nat) :
    (s.products pid = none →
      (productServiceDelete s pid).result = .error .productNotFound ∧
      (productServiceDelete s pid).store = s) ∧
    (∀ p, s.products pid = some p → hasPendingOrdersByProductID s pid = true →
      (productServiceDelete s pid).result = .error .productHasPendingOrders ∧
      (productServiceDelete s pid).store = s) ∧
    (∀ p, s.products pid = some p → hasPendingOrdersByProductID s pid = false →
      (productServiceDelete s pid).result = .ok () ∧
      (productServiceDelete s pid).store.products pid = none ∧
      (∀ k, ¬ k = pid → (productServiceDelete s pid).store.products k = s.products k) ∧
      (productServiceDelete s pid).store.orders = s.orders ∧
      (productServiceDelete ((productServiceDelete s pid).store) pid).result =
        .error .productNotFound) := by
  refine ⟨?_, ?_, ?_⟩
  · intro h
    rw [productServiceDelete_none s pid h]
    exact ⟨rfl, rfl⟩
  · intro p h hp
    rw [productServiceDelete_pending s pid p h hp]
    exact ⟨rfl, rfl⟩
  · intro p h hp
    rw [productServiceDelete_ok s pid p h hp]
    have hnone2 : Store.products
        { s with products := fun k => if k = pid then none else s.products k } pid = none := by
      show (if pid = pid then none else s.products pid) = none
      rw [if_pos rfl]
    refine ⟨rfl, hnone2, ?_, rfl, ?_⟩
    · intro k hk
      show (if k = pid then none else s.products k) = s.products k
      rw [if_neg hk]
    · rw [productServiceDelete_none _ pid hnone2]

/-- Witness for C6: deleting the missing product 3 fails NotFound; deleting
product 1, which the pending order `oW` references, fails with the
pending-orders error and changes nothing; deleting the unreferenced
product 2 succeeds once and NotFounds on repeat. -/
theorem delete_pending_guard_witness :
    (productServiceDelete sW 3).result = .error .productNotFound ∧
    (productServiceDelete sWP 1).result = .error .productHasPendingOrders ∧
    (productServiceDelete sWP 1).store = sWP ∧
    (productServiceDelete sWP 2).result = .ok () ∧
    (productServiceDelete ((productServiceDelete sWP 2).store) 2).result =
      .error .productNotFound :=
  ⟨((delete_pending_guard sW 3).1 (by rfl)).1,
   ((delete_pending_guard sWP 1).2.1 pW (by rfl) (by decide)).1,
   ((delete_pending_guard sWP 1).2.1 pW (by rfl) (by decide)).2,
   ((delete_pending_guard sWP 2).2.2 pW2 (by rfl) (by decide)).1,
   ((delete_pending_guard sWP 2).2.2 pW2 (by rfl) (by decide)).2.2.2.2⟩

/-! ## C7 — price capture, frame effect of product Update -/

theorem applyName_id (p : Product) (o : Option String) (q : Product)
    (h : applyName p o = .ok q) : q.id = p.id := by
  cases o with
  | none =>
      simp only [applyName] at h
      injection h with h2
      rw [← h2]
  | some nm =>
      simp only [applyName] at h
      split_ifs at h
      all_goals
        first
          | exact Except.noConfusion h
          | (injection h with h2; rw [← h2])

theorem applyDescr_id (p : Product) (o : Option String) (q : Product)
    (h : applyDescr p o = .ok q) : q.id = p.id := by
  cases o with
  | none =>
      simp only [applyDescr] at h
      injection h with h2
      rw [← h2]
  | some d =>
      simp only [applyDescr] at h
      split_ifs at h
      all_goals
        first
          | exact Except.noConfusion h
          | (injection h with h2; rw [← h2])

theorem applyPrice_id (p : Product) (o : Option ℚ) (q : Product)
    (h : applyPrice p o = .ok q) : q.id = p.id := by
  cases o with
  | none =>
      simp only [applyPrice] at h
      injection h with h2
      rw [← h2]
  | some pr =>
      simp only [applyPrice] at h
      split_ifs at h
      all_goals
        first
          | exact Except.noConfusion h
          | (injection h with h2; rw [← h2])

theorem applyStock_id (p : Product) (o : Option Int) (q : Product)
    (h : applyStock p o = .ok q) : q.id = p.id := by
  cases o with
  | none =>
      simp only [applyStock] at h
      injection h with h2
      rw [← h2]
  | some st =>
      simp only [applyStock] at h
      split_ifs at h
      all_goals
        first
          | exact Except.noConfusion h
          | (injection h with h2; rw [← h2])

theorem applyCategory_id (p : Product) (o : Option String) (q : Product)
    (h : applyCategory p o = .ok q) : q.id = p.id := by
  cases o with
  | none =>
      simp only [applyCategory] at h
      injection h with h2
      rw [← h2]
  | some c =>
      simp only [applyCategory] at h
      split_ifs at h
      all_goals
        first
          | exact Except.noConfusion h
          | (injection h with h2; rw [← h2])

theorem applyUpdate_id (p : Product) (input : UpdateProductInput) (q : Product)
    (h : applyUpdate p input = .ok q) : q.id = p.id := by
  unfold applyUpdate at h
  split at h
  · exact Except.noConfusion h
  · next p1 h1 =>
      split at h
      · exact Except.noConfusion h
      · next p2 h2 =>
          split at h
          · exact Except.noConfusion h
          · next p3 h3 =>
              split at h
              · exact Except.noConfusion h
              · next p4 h4 =>
                  rw [applyCategory_id p4 input.category q h,
                    applyStock_id p3 input.stock p4 h4,
                    applyPrice_id p2 input.price p3 h3,
                    applyDescr_id p1 input.descr p2 h2,
                    applyName_id p input.name p1 h1]

/-- C7: a product Update — in particular a price change — touches only that
product's row: the orders table (and with it every stored order item and
its captured `unitPrice`) is bit-for-bit unchanged, every order present
before is present after, and every other product row is unchanged. -/
theorem update_frame (now : Nat) (s : Store) (pid : Nat) (input : UpdateProductInput)
    (hWF : WFStore s) :
    (productServiceUpdate now s pid input).store.orders = s.orders ∧
    (∀ o ∈ s.orders, o ∈ (productServiceUpdate now s pid input).store.orders) ∧
    (∀ k, ¬ k = pid → (productServiceUpdate now s pid input).store.products k =
      s.products k) := by
  cases hsp : s.products pid with
  | none =>
      have hred : productServiceUpdate now s pid input =
          { result := .error .productNotFound, store := s } := by
        unfold productServiceUpdate
        rw [hsp]
      rw [hred]
      exact ⟨rfl, fun o ho => ho, fun k _ => rfl⟩
  | some p =>
      have hid := hWF pid p hsp
      cases hau : applyUpdate p input with
      | error e =>
          have hred : productServiceUpdate now s pid input =
              { result := .error e, store := s } := by
            unfold productServiceUpdate
            rw [hsp]
            dsimp only
            rw [hau]
          rw [hred]
          exact ⟨rfl, fun o ho => ho, fun k _ => rfl⟩
      | ok p2 =>
          have hid2 : p2.id = p.id := applyUpdate_id p input p2 hau
          have hup := productsUpdate_eq s { p2 with updatedAt := now } p
            (by
              show s.products p2.id = some p
              rw [hid2, hid]
              exact hsp)
          have hred : productServiceUpdate now s pid input =
              { result := .ok { p2 with updatedAt := now },
                store := { s with products := fun k =>
                    (if k = ({ p2 with updatedAt := now } : Product).id then
                      some (applyColumns p { p2 with updatedAt := now })
                    else s.products k) } } := by
            unfold productServiceUpdate
            rw [hsp]
            dsimp only
            rw [hau]
            dsimp only
            rw [hup]
          rw [hred]
          refine ⟨rfl, fun o ho => ho, ?_⟩
          intro k hk
          have hkk : ¬ k = ({ p2 with updatedAt := now } : Product).id := by
            show ¬ k = p2.id
            rw [hid2, hid]
            exact hk
          show (if k = ({ p2 with updatedAt := now } : Product).id then
                  some (applyColumns p { p2 with updatedAt := now })
                else s.products k) = s.products k
          rw [if_neg hkk]

/-- Witness for C7: raising product 1's price to 25 in the store holding
the placed pending order `oW` (captured unit price 10) leaves the orders —
and so `oW`'s item's `unitPrice` — unchanged, as well as product 2. -/
theorem update_frame_witness :
    (productServiceUpdate 9 sWP 1
        { name := none, descr := none, price := some 25, stock := none,
          category := none }).store.orders = sWP.orders ∧
    (productServiceUpdate 9 sWP 1
        { name := none, descr := none, price := some 25, stock := none,
          category := none }).store.products 2 = sWP.products 2 := by
  have hWFP : WFStore sWP := fun pid p h => sW_WF pid p h
  exact ⟨(update_frame 9 sWP 1 _ hWFP).1,
         (update_frame 9 sWP 1 _ hWFP).2.2 2 (by decide)⟩

/-! ## C8 / C10 — bounded TTL cache -/

theorem insertEntry_length_le {α : Type} (l : List (String × CEntry α)) (key : String)
    (e : CEntry α) : (insertEntry l key e).length ≤ l.length + 1 := by
  unfold insertEntry
  split_ifs
  · rw [List.length_map]
    omega
  · rw [List.length_append]
    simp

theorem mem_insertEntry {α : Type} (l : List (String × CEntry α)) (key : String)
    (e : CEntry α) (kv : String × CEntry α) (h : kv ∈ insertEntry l key e) :
    kv = (key, e) ∨ kv ∈ l := by
  unfold insertEntry at h
  split_ifs at h
  · rcases List.mem_map.mp h with ⟨kv0, hkv0, heq⟩
    by_cases hb : kv0.1 == key
    · rw [if_pos hb] at heq
      left
      rw [← heq]
    · rw [if_neg hb] at heq
      right
      rw [← heq]
      exact hkv0
  · rcases List.mem_append.mp h with h2 | h2
    · right
      exact h2
    · left
      simpa using h2

theorem keys_nodup_unique {α : Type} :
    ∀ (l : List (String × α)), (l.map Prod.fst).Nodup →
      ∀ (k : String) (a b : α), (k, a) ∈ l → (k, b) ∈ l → a = b := by
  intro l
  induction l with
  | nil =>
      intro _ k a b ha _
      cases ha
  | cons x t ih =>
      intro hnd k a b ha hb
      rw [List.map_cons, List.nodup_cons] at hnd
      rcases List.mem_cons.mp ha with h1 | h1 <;> rcases List.mem_cons.mp hb with h2 | h2
      · have h3 := h1.trans h2.symm
        injection h3
      · exfalso
        apply hnd.1
        rw [← h1]
        exact List.mem_map.mpr ⟨(k, b), h2, rfl⟩
      · exfalso
        apply hnd.1
        rw [← h2]
        exact List.mem_map.mpr ⟨(k, a), h1, rfl⟩
      · exact ih hnd.2 k a b h1 h2

theorem find?_key {α : Type} (l : List (String × CEntry α)) (key : String)
    (kv : String × CEntry α) (h : l.find? (fun kv => kv.1 == key) = some kv) :
    kv.1 = key ∧ kv ∈ l := by
  have h1 := List.find?_some h
  have h2 := List.mem_of_find?_eq_some h
  exact ⟨by simpa using h1, h2⟩

/-- The hit/miss characterisation of `MemoryCache.Get` (read-only, no
mutation: the Go method only takes the read lock). -/
theorem cache_get_iff {α : Type} (c : MemoryCache α) (now : Nat) (key : String)
    (hnd : (c.items.map Prod.fst).Nodup) (v : α) :
    c.get now key = some v ↔
      ∃ e, (key, e) ∈ c.items ∧ ¬ e.expiration < now ∧ e.value = v := by
  unfold MemoryCache.get
  cases hf : c.items.find? (fun kv => kv.1 == key) with
  | none =>
      dsimp only
      constructor
      · intro h
        cases h
      · rintro ⟨e, hm, _, _⟩
        exfalso
        have := List.find?_eq_none.mp hf (key, e) hm
        simp at this
  | some kv =>
      dsimp only
      obtain ⟨hk, hmem⟩ := find?_key c.items key kv hf
      have hkv : (key, kv.2) ∈ c.items := by
        rw [← hk]
        exact hmem
      by_cases hex : kv.2.expiration < now
      · rw [if_pos hex]
        constructor
        · intro h
          cases h
        · rintro ⟨e, hm, hnx, _⟩
          exfalso
          have he : e = kv.2 := keys_nodup_unique c.items hnd key e kv.2 hm hkv
          rw [he] at hnx
          exact hnx hex
      · rw [if_neg hex]
        constructor
        · intro h
          injection h with h2
          exact ⟨kv.2, hkv, hex, h2⟩
        · rintro ⟨e, hm, _, hval⟩
          have he : e = kv.2 := keys_nodup_unique c.items hnd key e kv.2 hm hkv
          rw [← hval, he]

/-- C8: the cache never grows past its configured maximum: a `Set` on a
cache within capacity stays within capacity; a `Set` at capacity first
sweeps the expired entries and, if the cache is still at capacity, inserts
nothing, leaving the cache unchanged; and after a `Set` at capacity every
surviving entry other than the freshly written key is unexpired. -/
theorem cache_capacity {α : Type} (c : MemoryCache α) (now : Nat) (key : String) (v : α) :
    (c.items.length ≤ c.max → (c.set now key v).items.length ≤ c.max) ∧
    (c.items.length = c.max → c.max ≤ (purgeExpired now c.items).length →
      c.set now key v = c) ∧
    (c.max ≤ c.items.length →
      ∀ kv ∈ (c.set now key v).items, kv.1 = key ∨ now ≤ kv.2.expiration) := by
  refine ⟨?_, ?_, ?_⟩
  · intro hle
    simp only [MemoryCache.set]
    by_cases hfull : c.max ≤ c.items.length
    · rw [if_pos hfull]
      by_cases hstill : c.max ≤ (purgeExpired now c.items).length
      · rw [if_pos hstill]
        show (purgeExpired now c.items).length ≤ c.max
        have h1 : (purgeExpired now c.items).length ≤ c.items.length :=
          List.length_filter_le _ _
        omega
      · rw [if_neg hstill]
        show (insertEntry (purgeExpired now c.items) key
          { value := v, expiration := now + c.ttl }).length ≤ c.max
        have h1 := insertEntry_length_le (purgeExpired now c.items) key
          { value := v, expiration := now + c.ttl }
        omega
    · rw [if_neg hfull]
      show (insertEntry c.items key { value := v, expiration := now + c.ttl }).length ≤ c.max
      have h1 := insertEntry_length_le c.items key { value := v, expiration := now + c.ttl }
      omega
  · intro heq hstill
    simp only [MemoryCache.set]
    rw [if_pos (by omega : c.max ≤ c.items.length), if_pos hstill]
    have hle : (c.items.filter fun kv => decide (now ≤ kv.2.expiration)).length ≤
        c.items.length := List.length_filter_le _ _
    have hstill2 : c.max ≤
        (c.items.filter fun kv => decide (now ≤ kv.2.expiration)).length := hstill
    have hpe : purgeExpired now c.items = c.items := by
      apply filter_len_eq
      omega
    rw [hpe]
  · intro hfull kv hkv
    revert hkv
    simp only [MemoryCache.set]
    rw [if_pos hfull]
    by_cases hstill : c.max ≤ (purgeExpired now c.items).length
    · rw [if_pos hstill]
      intro hkv
      right
      have := List.of_mem_filter hkv
      simpa using this
    · rw [if_neg hstill]
      intro hkv
      rcases mem_insertEntry _ _ _ _ hkv with h | h
      · left
        rw [h]
      · right
        have := List.of_mem_filter h
        simpa using this

/-- Witness for C8: at capacity with an unexpired entry, `Set` of a new key
changes nothing. -/
theorem cache_capacity_witness : cW.set 6 "b" 7 = cW :=
  (cache_capacity cW 6 "b" 7).2.1 (by decide) (by decide)

/-- C10: `Get` hits exactly the present-and-unexpired keys; on an expired
entry it misses yet deletes nothing (the read is pure, the entry keeps
occupying a slot), and the entry disappears only when a `Set` on the full
cache sweeps it. -/
theorem cache_get_semantics {α : Type} (c : MemoryCache α) (now : Nat) (key : String)
    (hnd : (c.items.map Prod.fst).Nodup) :
    (∀ v, c.get now key = some v ↔
      ∃ e, (key, e) ∈ c.items ∧ ¬ e.expiration < now ∧ e.value = v) ∧
    (∀ e, (key, e) ∈ c.items → e.expiration < now →
      c.get now key = none ∧ (key, e) ∈ c.items) ∧
    (∀ e k2 v2, (k2, e) ∈ c.items → e.expiration < now → c.items.length = c.max →
      (k2, e) ∉ (c.set now key v2).items) := by
  refine ⟨fun v => cache_get_iff c now key hnd v, ?_, ?_⟩
  · intro e hm hexp
    refine ⟨?_, hm⟩
    cases hg : c.get now key with
    | none => rfl
    | some v =>
        exfalso
        obtain ⟨e2, hm2, hnx, _⟩ := (cache_get_iff c now key hnd v).mp hg
        have he : e2 = e := keys_nodup_unique c.items hnd key e2 e hm2 hm
        rw [he] at hnx
        exact hnx hexp
  · intro e k2 v2 hm hexp hlen
    simp only [MemoryCache.set]
    have hfull : c.max ≤ c.items.length := by omega
    rw [if_pos hfull]
    have hplt : (purgeExpired now c.items).length < c.items.length := by
      apply filter_len_lt _ (k2, e) c.items hm
      simp
      omega
    have hstill : ¬ c.max ≤ (purgeExpired now c.items).length := by omega
    rw [if_neg hstill]
    intro hmem2
    rcases mem_insertEntry _ _ _ _ hmem2 with h | h
    · have h2 : e = ({ value := v2, expiration := now + c.ttl } : CEntry α) := by
        injection h with ha hb
      have h3 : e.expiration = now + c.ttl := by rw [h2]
      omega
    · have := List.of_mem_filter h
      simp at this
      omega

/-- Witness for C10: the one-slot cache whose only entry expired at 4 is a
miss at instant 6, the entry still occupies the slot, and a `Set` at
capacity sweeps it out. -/
theorem cache_get_semantics_witness :
    (cW2.get 6 "a" = none ∧ ("a", ({ value := 5, expiration := 4 } : CEntry Nat)) ∈ cW2.items) ∧
    ("a", ({ value := 5, expiration := 4 } : CEntry Nat)) ∉ (cW2.set 6 "b" 9).items :=
  ⟨(cache_get_semantics cW2 6 "a" (by decide)).2.1 { value := 5, expiration := 4 }
      (by decide) (by decide),
   (cache_get_semantics cW2 6 "b" (by decide)).2.2 { value := 5, expiration := 4 } "a" 9
      (by decide) (by decide) (by decide)⟩

/-! ## C9 — sliding-window rate limiter -/

/-- C9: a request is rejected exactly when the number of this client's
previously recorded requests still inside the window ending at `now` has
reached the limit; in particular a client whose `limit` recorded requests
all lie inside the window stays rejected, and once the window has slid past
some recorded request (with at most `limit` recorded) the next request is
accepted again. -/
theorem rate_limit_window (m : RateLimiter) (ip : String) (now : Int) :
    ((m.step ip now).1 = false ↔
      m.limit ≤ ((m.requests ip).filter (inWindow m.window now)).length) ∧
    ((m.requests ip).length = m.limit →
      (∀ t ∈ m.requests ip, now - m.window < t) → (m.step ip now).1 = false) ∧
    ((m.requests ip).length ≤ m.limit →
      (∃ t ∈ m.requests ip, t ≤ now - m.window) → (m.step ip now).1 = true) := by
  have hiff : (m.step ip now).1 = false ↔
      m.limit ≤ ((m.requests ip).filter (inWindow m.window now)).length := by
    unfold RateLimiter.step
    by_cases hc : m.limit ≤ ((m.requests ip).filter (inWindow m.window now)).length
    · rw [if_pos hc]
      exact ⟨fun _ => hc, fun _ => rfl⟩
    · rw [if_neg hc]
      constructor
      · intro h
        exact absurd h (by simp)
      · intro h
        exact absurd h hc
  refine ⟨hiff, ?_, ?_⟩
  · intro hlen hall
    apply hiff.mpr
    have hfe : (m.requests ip).filter (inWindow m.window now) = m.requests ip := by
      apply List.filter_eq_self.mpr
      intro t ht
      unfold inWindow
      simpa using hall t ht
    rw [hfe, hlen]
  · intro hlen ⟨t0, ht0, hout⟩
    have hlt : ((m.requests ip).filter (inWindow m.window now)).length <
        (m.requests ip).length := by
      apply filter_len_lt _ t0 _ ht0
      unfold inWindow
      simp
      omega
    unfold RateLimiter.step
    rw [if_neg (by omega)]

/-- Witness for C9: at instant 106 both recorded requests are inside the
window, so client "a" is rejected; at instant 111 the window has slid past
the request at 100, so the client is accepted again. -/
theorem rate_limit_window_witness :
    (mW.step "a" 106).1 = false ∧ (mW.step "a" 111).1 = true :=
  ⟨(rate_limit_window mW "a" 106).2.1 (by decide) (by decide),
   (rate_limit_window mW "a" 111).2.2 (by decide) (by decide)⟩

end Ecom
